import Mathlib

/-!
Shallow embedding of `src/test-parser.js`: a recursive interpreter that
walks a declarative tree of feature/scenario test nodes and drives a
Mocha-style runner's registration primitives (describe groups,
before/beforeEach hooks, named it tests).

Registration is modelled as a trace of events together with an optional
synchronously raised error; a raised error stops the walk but keeps the
registrations already made, matching the runner's behaviour.
-/

/-- JavaScript-like runtime values used for scopes, contexts, fan-out
indices and test data. A settled promise is modelled by a flag (resolved
or rejected) together with its value or reason. -/
inductive Value where
  | undef : Value
  | nullv : Value
  | bool : Bool → Value
  | num : Int → Value
  | str : String → Value
  | obj : List (String × Value) → Value
  | promise : Bool → Value → Value

/-- JavaScript truthiness of a value. -/
def truthy : Value → Bool
  | .undef => false
  | .nullv => false
  | .bool b => b
  | .num n => n != 0
  | .str s => !s.isEmpty
  | .obj _ => true
  | .promise _ _ => true

/-- An error raised by the embedded JavaScript: either a TypeError raised
by the runtime or an arbitrary value thrown by user code. -/
inductive JsErr where
  | typeError : String → JsErr
  | raised : Value → JsErr

/-- First-match lookup in an object's field list; a missing key reads as
undefined. -/
def objLookup : List (String × Value) → String → Value
  | [], _ => .undef
  | (k, v) :: rest, key => if k = key then v else objLookup rest key

/-- Property read `v.k`: throws a TypeError on null or undefined, returns
the field for objects, and undefined for other primitives. -/
def jsGetField : Value → String → Except JsErr Value
  | .undef, k => .error (.typeError ("Cannot read properties of undefined (reading " ++ k ++ ")"))
  | .nullv, k => .error (.typeError ("Cannot read properties of null (reading " ++ k ++ ")"))
  | .obj fields, k => .ok (objLookup fields k)
  | _, _ => .ok .undef

mutual
/-- A node of the declarative test tree, mirroring the
scenario-test-object / feature-test-object shapes of the source.
`nullNode` models a null or undefined entry in a node array. For the
`mk` constructor the arguments are, in order: `feature` and `scenario`
display values; the optional `set` generator (present iff the field is a
function; it may throw); whether `tests` is an array, and its nodes;
whether a `before` hook function is present; whether a `beforeEach` hook
function is present; the optional `given` predicate taking
(scope, wndw, index); whether `inherit` is an array, and its nodes; the
optional `getDomFragment` override (called by the source with the single
argument `docFragment`); the optional `getActual` function; and the
optional `comparison` function (which may throw). -/
inductive JNode where
  | nullNode : JNode
  | mk : Value → Value →
      Option (Value → Except JsErr (List Value)) →
      Bool → JNodeList →
      Bool → Bool →
      Option (Value → Value → Value → Value) →
      Bool → JNodeList →
      Option (Value → Value) →
      Option (Value → Value → Value) →
      Option (Value → Except JsErr Value) → JNode

/-- A list of test nodes (the element type of `tests` and `inherit`). -/
inductive JNodeList where
  | nil : JNodeList
  | cons : JNode → JNodeList → JNodeList
end

/-- The `feature` field of a node (undefined on a null entry). -/
def JNode.feature : JNode → Value
  | .nullNode => .undef
  | .mk f _ _ _ _ _ _ _ _ _ _ _ _ => f

/-- The `scenario` field of a node. -/
def JNode.scenario : JNode → Value
  | .nullNode => .undef
  | .mk _ s _ _ _ _ _ _ _ _ _ _ _ => s

/-- The `set` field of a node: `some` exactly when the field holds a
function. -/
def JNode.set : JNode → Option (Value → Except JsErr (List Value))
  | .nullNode => none
  | .mk _ _ st _ _ _ _ _ _ _ _ _ _ => st

/-- Whether the node's `tests` field is an array. -/
def JNode.testsIsArr : JNode → Bool
  | .nullNode => false
  | .mk _ _ _ ta _ _ _ _ _ _ _ _ _ => ta

/-- The nodes of the `tests` field. -/
def JNode.tests : JNode → JNodeList
  | .nullNode => .nil
  | .mk _ _ _ _ ts _ _ _ _ _ _ _ _ => ts

/-- Whether a `before` hook function is present. -/
def JNode.before : JNode → Bool
  | .nullNode => false
  | .mk _ _ _ _ _ bf _ _ _ _ _ _ _ => bf

/-- Whether a `beforeEach` hook function is present. -/
def JNode.beforeEach : JNode → Bool
  | .nullNode => false
  | .mk _ _ _ _ _ _ be _ _ _ _ _ _ => be

/-- The `given` predicate of a node: `some` exactly when the field holds
a function. It receives (scope, wndw, index) and its result is tested
for truthiness. -/
def JNode.given : JNode → Option (Value → Value → Value → Value)
  | .nullNode => none
  | .mk _ _ _ _ _ _ _ g _ _ _ _ _ => g

/-- Whether the node's `inherit` field is an array. -/
def JNode.inheritIsArr : JNode → Bool
  | .nullNode => false
  | .mk _ _ _ _ _ _ _ _ ia _ _ _ _ => ia

/-- The nodes of the `inherit` field. -/
def JNode.inherit : JNode → JNodeList
  | .nullNode => .nil
  | .mk _ _ _ _ _ _ _ _ _ ih _ _ _ => ih

/-- The `getDomFragment` field of a node: `some` exactly when the field
holds a function. The source invokes it with the single argument
`docFragment`. -/
def JNode.getDomFragment : JNode → Option (Value → Value)
  | .nullNode => none
  | .mk _ _ _ _ _ _ _ _ _ _ gd _ _ => gd

/-- The `getActual` field of a node. -/
def JNode.getActual : JNode → Option (Value → Value → Value)
  | .nullNode => none
  | .mk _ _ _ _ _ _ _ _ _ _ _ ga _ => ga

/-- The `comparison` field of a node. -/
def JNode.comparison : JNode → Option (Value → Except JsErr Value)
  | .nullNode => none
  | .mk _ _ _ _ _ _ _ _ _ _ _ _ c => c

/-- Whether this entry of a node array is a null/undefined entry. -/
def JNode.isNull : JNode → Bool
  | .nullNode => true
  | .mk _ _ _ _ _ _ _ _ _ _ _ _ _ => false

/-- A registration event observed by the test runner: a named describe
group with its nested registrations, a before hook (capturing the wndw
it closes over), a beforeEach hook (capturing docFragment and wndw), or
a named it test capturing the docFragment and wndw it was registered
with together with the semantics of its body (outer layer: synchronous
throw while running the body; inner layer: eventual settlement of the
returned promise). -/
inductive Reg where
  | group : Value → List Reg → Reg
  | hookBefore : Value → Reg
  | hookBeforeEach : Value → Value → Reg
  | test : Value → Value → Value → Except JsErr (Except JsErr Value) → Reg

/-- Result of a walk: the registrations made, in order, and the error that
aborted the walk, if any. Registrations made before the error are kept. -/
structure WalkOut where
  regs : List Reg
  err : Option JsErr

/-- Message produced when `.then` is called on a non-thenable value. -/
def notThenableMsg : Value → String
  | .undef => "Cannot read properties of undefined (reading then)"
  | .nullv => "Cannot read properties of null (reading then)"
  | _ => "getActual(...).then is not a function"

/-- Semantics of the test body registered by `itter`:
`test.getActual(docFragment, wndw).then(test.comparison)`. The outer
`Except` is a synchronous throw while evaluating the body (absent
`getActual`, or a non-thenable result on which `.then` cannot be
called); the inner `Except` is the settlement of the resulting promise
chain (`comparison`'s return resolves it, its throw or an upstream
rejection rejects it). -/
def testBody (test : JNode) (docFragment wndw : Value) : Except JsErr (Except JsErr Value) :=
  match test.getActual with
  | none => .error (.typeError ("test.getActual is not a function"))
  | some ga =>
    match ga docFragment wndw with
    | .promise true v =>
      (match test.comparison with
       | some cmp => .ok (cmp v)
       | none => .ok (.ok v))
    | .promise false r => .ok (.error (.raised r))
    | r => .error (.typeError (notThenableMsg r))

/-- Embedding of the source's `itter`: registers one `it` test named
`test.scenario` whose body is `getActual(docFragment, wndw).then(comparison)`. -/
def itter (test : JNode) (docFragment wndw : Value) : List Reg :=
  [Reg.test test.scenario docFragment wndw (testBody test docFragment wndw)]

/-- Embedding of the source's `getDomFragment` helper: if the node carries
a callable `getDomFragment`, return `test.getDomFragment(docFragment)`;
otherwise return `docFragment` unchanged. -/
def getDomFragment (test : JNode) (docFragment : Value) : Value :=
  match test.getDomFragment with
  | some f => f docFragment
  | none => docFragment

/-- The root unwrap performed at the top of every `testParser` call:
if `docFragment.document` is truthy and `wndw` is undefined, use
`docFragment` as the context and `docFragment.document` as the working
scope. The property read can throw (null or undefined `docFragment`). -/
def unwrapRoot (docFragment wndw : Value) : Except JsErr (Value × Value) :=
  match jsGetField docFragment ("document") with
  | .error e => .error e
  | .ok d =>
    if truthy d then
      match wndw with
      | .undef => .ok (d, docFragment)
      | _ => .ok (docFragment, wndw)
    else .ok (docFragment, wndw)

/-- A `testParser` call whose recursive body has been abstracted: run the
root unwrap (possibly throwing), then, if the first argument was an
array, run the walk `g` on the unwrapped scope and context; otherwise
no-op. -/
def parserWith (g : Value → Value → Value → WalkOut) (isArr : Bool)
    (docFragment wndw index : Value) : WalkOut :=
  match unwrapRoot docFragment wndw with
  | .error e => ⟨[], some e⟩
  | .ok (d, w) => if isArr then g d w index else ⟨[], none⟩

/-- Hook registrations made at the top of a feature group's describe
body: a `before` hook closing over `wndw`, then a `beforeEach` hook
closing over `docFragment` and `wndw`, each only if the corresponding
field holds a function. -/
def hookRegs (bf be : Bool) (docFragment wndw : Value) : List Reg :=
  (if bf then [Reg.hookBefore wndw] else []) ++
    (if be then [Reg.hookBeforeEach docFragment wndw] else [])

/-- Display name of the nested describe group for fan-out position `j`. -/
def setIndexName (j : Nat) : Value := .str ("Set index: " ++ toString j)

/-- Body of the nested `Set index` group of a fan-out leaf at generated
scope `s`: if `given` is callable it is evaluated on the outer
(pre-fan-out) scope `d`, the context `w` and the enclosing call's index
`i`, and gates the single `itter` registration on the generated scope
`s`; absent `given`, `itter` runs unconditionally on `s`. -/
def leafGroupBody (t : JNode) (s d w i : Value) : List Reg :=
  match t.given with
  | some g => if truthy (g d w i) then itter t s w else []
  | none => itter t s w

/-- The fan-out loop of a leaf with a callable `set`: one nested group
named `Set index: j` per generated scope, in generator order. -/
def fanLeaf (t : JNode) : List Value → Nat → Value → Value → Value → List Reg
  | [], _, _, _, _ => []
  | s :: rest, j, d, w, i =>
    Reg.group (setIndexName j) (leafGroupBody t s d w i) :: fanLeaf t rest (j + 1) d w i

/-- The fan-out loop of a feature group with a callable `set`: one nested
group named `Set index: j` per generated scope, each recursing (via the
abstracted recursive call `g`) on the node's `tests` with the generated
scope as docFragment and `j` as the new index. An error raised inside a
nested body keeps that group's partial registrations and stops the loop. -/
def fanGroups (g : Value → Value → Value → WalkOut) (isArr : Bool) :
    List Value → Nat → Value → WalkOut
  | [], _, _ => ⟨[], none⟩
  | s :: rest, j, w =>
    let sub := parserWith g isArr s w (.num j)
    match sub.err with
    | some e => ⟨[Reg.group (setIndexName j) sub.regs], some e⟩
    | none =>
      let more := fanGroups g isArr rest (j + 1) w
      ⟨Reg.group (setIndexName j) sub.regs :: more.regs, more.err⟩

mutual
/-- The forEach loop of `testParser` over a node array: process nodes in
order, stopping at (and keeping the registrations before) a raised
error. -/
def walkForEach : JNodeList → Value → Value → Value → WalkOut
  | .nil, _, _, _ => ⟨[], none⟩
  | .cons t tl, d, w, i =>
    let r := walkNode t d w i
    match r.err with
    | some _ => r
    | none =>
      let rs := walkForEach tl d w i
      ⟨r.regs ++ rs.regs, rs.err⟩

/-- Dispatch of `testParser` on a single node, mirroring the source's
classification: a truthy `feature` makes a group (fan-out via callable
`set`, else plain via array `tests`, else nothing); otherwise a truthy
`scenario` makes a leaf (fan-out via callable `set`, else inheritance
via array `inherit`, else conditional or unconditional direct leaf);
otherwise the node is skipped. A null entry throws a TypeError when its
`feature` field is read. -/
def walkNode : JNode → Value → Value → Value → WalkOut
  | .nullNode, _, _, _ =>
    ⟨[], some (.typeError ("Cannot read properties of null (reading feature)"))⟩
  | t@(.mk feature scenario st testsIsArr tests bf be given inheritIsArr inherit _ _ _), d, w, i =>
    if truthy feature then
      match st with
      | some f =>
        match f d with
        | .error e => ⟨[], some e⟩
        | .ok arr =>
          let inner := fanGroups (walkForEach tests) testsIsArr arr 0 w
          ⟨[Reg.group feature (hookRegs bf be d w ++ inner.regs)], inner.err⟩
      | none =>
        if testsIsArr then
          let sub := parserWith (walkForEach tests) true d w .undef
          ⟨[Reg.group feature (hookRegs bf be d w ++ sub.regs)], sub.err⟩
        else ⟨[], none⟩
    else if truthy scenario then
      match st with
      | some f =>
        match f d with
        | .error e => ⟨[], some e⟩
        | .ok arr => ⟨fanLeaf t arr 0 d w i, none⟩
      | none =>
        if inheritIsArr then
          let sub := parserWith (walkForEach inherit) true (getDomFragment t d) w .undef
          ⟨[Reg.group scenario sub.regs], sub.err⟩
        else
          match given with
          | some g =>
            if truthy (g d w i) then ⟨itter t (getDomFragment t d) w, none⟩
            else ⟨[], none⟩
          | none => ⟨itter t (getDomFragment t d) w, none⟩
    else ⟨[], none⟩
end

/-- Embedding of the source's `testParser`: the first argument is `some`
of the node list when the caller passed an array, `none` otherwise.
The root unwrap runs first (and can throw), then the array guard, then
the forEach loop over the nodes. -/
def testParser (tests : Option JNodeList) (docFragment wndw index : Value) : WalkOut :=
  match tests with
  | none => parserWith (fun _ _ _ => ⟨[], none⟩) false docFragment wndw index
  | some ts => parserWith (walkForEach ts) true docFragment wndw index

/-- Whether a value is a thenable in this model (exactly the promises). -/
def isThenable : Value → Bool
  | .promise _ _ => true
  | _ => false

/-- The name of a registered describe group, `none` for hook and test
registrations. -/
def regName : Reg → Option Value
  | .group n _ => some n
  | .hookBefore _ => none
  | .hookBeforeEach _ _ => none
  | .test _ _ _ _ => none

/-- A getActual function that resolves with the scope it was given. -/
def echoActual : Value → Value → Value := fun s _ => .promise true s

/-- A comparison function that accepts any value. -/
def okCmp : Value → Except JsErr Value := fun v => .ok v

/-- A given predicate that returns the fan-out index argument itself, so
its truthiness tracks which index value it was invoked with. -/
def idxGiven : Value → Value → Value → Value := fun _ _ iv => iv

/-- A set generator producing the two scopes 10 and 11. -/
def pairSet : Value → Except JsErr (List Value) := fun _ => .ok [.num 10, .num 11]

/-- A set generator producing the single scope 7. -/
def oneSet : Value → Except JsErr (List Value) := fun _ => .ok [.num 7]

/-- A set generator that always throws the string value boom. -/
def boomSet : Value → Except JsErr (List Value) := fun _ => .error (.raised (.str ("boom")))

/-- A getDomFragment override that ignores its argument and returns 99. -/
def constFrag : Value → Value := fun _ => .num 99

/-- A fan-out leaf that also carries a callable getDomFragment: scenario
fr, set generating the single scope 7, getDomFragment returning 99, and
an echoing getActual. -/
def frNode : JNode :=
  .mk .undef (.str ("fr")) (some oneSet) false .nil false false none false .nil
    (some constFrag) (some echoActual) none

/-- A fan-out leaf with a given predicate: scenario fl, set generating
scopes 10 and 11, given returning the index argument. -/
def flNode : JNode :=
  .mk .undef (.str ("fl")) (some pairSet) false .nil false false (some idxGiven)
    false .nil none (some echoActual) (some okCmp)

/-- A direct leaf with a getDomFragment override and a given predicate:
scenario dl. -/
def dlNode : JNode :=
  .mk .undef (.str ("dl")) none false .nil false false (some idxGiven) false .nil
    (some constFrag) (some echoActual) (some okCmp)

/-- A plain direct leaf: scenario pl, echoing getActual, accepting
comparison. -/
def plNode : JNode :=
  .mk .undef (.str ("pl")) none false .nil false false none false .nil none
    (some echoActual) (some okCmp)

/-- A getActual function returning the non-thenable 3. -/
def plainActual : Value → Value → Value := fun _ _ => .num 3

/-- A direct leaf whose getActual returns a non-thenable value. -/
def ntNode : JNode :=
  .mk .undef (.str ("nt")) none false .nil false false none false .nil none
    (some plainActual) (some okCmp)

/-- An inheriting leaf: scenario inh, inherit holding the single direct
leaf plNode, with a getDomFragment override. -/
def inhNode : JNode :=
  .mk .undef (.str ("inh")) none false .nil false false none true (.cons plNode .nil)
    (some constFrag) none none

/-- A malformed node carrying neither a truthy feature nor a truthy
scenario. -/
def skipNode : JNode :=
  .mk .undef .undef none false .nil false false none false .nil none none none

/-- A fan-out feature group whose set generator throws: feature bg. -/
def bgNode : JNode :=
  .mk (.str ("bg")) .undef (some boomSet) true (.cons plNode .nil) false false none
    false .nil none none none

/-- A fan-out leaf whose set generator throws: scenario bl. -/
def blNode : JNode :=
  .mk .undef (.str ("bl")) (some boomSet) false .nil false false none false .nil none
    (some echoActual) (some okCmp)

/-- A one-element node list holding the plain direct leaf. -/
def plList : JNodeList := .cons plNode .nil

/-- The names of the groups produced by the fan-out loop of a leaf are
exactly `Set index: j, j+1, ...`, one per generated scope, in order,
whatever the outcome of the given predicate inside each group. -/
theorem fanLeaf_names (t : JNode) (arr : List Value) (j : Nat) (d w i : Value) :
    (fanLeaf t arr j d w i).map regName
      = (List.range arr.length).map (fun k => some (setIndexName (j + k))) := by
  induction arr generalizing j with
  | nil => simp [fanLeaf]
  | cons s rest ih =>
    have harith : (fun k => some (setIndexName (j + 1 + k)))
        = fun k => some (setIndexName (j + (k + 1))) := by
      funext k
      have h2 : j + 1 + k = j + (k + 1) := by omega
      rw [h2]
    simp [fanLeaf, regName, List.range_succ_eq_map, ih (j + 1), List.map_map,
      Function.comp, harith]

/-- Element `k` of the fan-out loop of a leaf: the nested group named
`Set index: j+k` whose body is the guarded itter registration on the
generated scope at position `k`. -/
theorem fanLeaf_get (t : JNode) (arr : List Value) (j : Nat) (d w i : Value) (k : Nat) :
    (fanLeaf t arr j d w i)[k]?
      = (arr[k]?).map (fun s => Reg.group (setIndexName (j + k)) (leafGroupBody t s d w i)) := by
  induction arr generalizing j k with
  | nil => simp [fanLeaf]
  | cons s rest ih =>
    cases k with
    | zero => simp [fanLeaf]
    | succ k2 =>
      have h2 : j + (k2 + 1) = j + 1 + k2 := by omega
      simp [fanLeaf, ih (j + 1) k2, h2]

/-- C4: the Leaf Executor registers exactly one named test, named by the
node's scenario, capturing the scope and context it was invoked with;
the registered body runs `getActual(scope, context)` and, once the
returned promise settles, feeds a resolution to `comparison` (whose
return or throw is the test's outcome) while a rejection surfaces
directly as the test's failure, so `comparison` only ever sees the
resolved value. -/
theorem c4_leaf_executor (t : JNode) (d w : Value)
    (ga : Value → Value → Value) (cmp : Value → Except JsErr Value) (v r : Value)
    (hga : t.getActual = some ga) (hcmp : t.comparison = some cmp) :
    itter t d w = [Reg.test t.scenario d w (testBody t d w)] ∧
    (ga d w = .promise true v → testBody t d w = .ok (cmp v)) ∧
    (ga d w = .promise false r → testBody t d w = .ok (.error (.raised r))) := by
  refine ⟨rfl, ?_, ?_⟩ <;> intro h <;> simp [testBody, hga, hcmp, h]

/-- Witness for c4_leaf_executor at plNode with scope 3 and context 4. -/
theorem c4_witness :
    JNode.getActual plNode = some echoActual ∧
    JNode.comparison plNode = some okCmp ∧
    (itter plNode (.num 3) (.num 4)
        = [Reg.test (JNode.scenario plNode) (.num 3) (.num 4) (testBody plNode (.num 3) (.num 4))] ∧
      (echoActual (.num 3) (.num 4) = .promise true (.num 3) →
        testBody plNode (.num 3) (.num 4) = .ok (okCmp (.num 3))) ∧
      (echoActual (.num 3) (.num 4) = .promise false (.num 5) →
        testBody plNode (.num 3) (.num 4) = .ok (.error (.raised (.num 5))))) :=
  ⟨rfl, rfl, c4_leaf_executor plNode (.num 3) (.num 4) echoActual okCmp (.num 3) (.num 5) rfl rfl⟩

/-- C10: the registered test body consumes getActual's result with a
`.then` call, so when getActual returns a non-thenable value the body
throws a TypeError at execution time, failing the test regardless of
what comparison would have done with the value. -/
theorem c10_thenable_required (t : JNode) (d w : Value) (ga : Value → Value → Value)
    (hga : t.getActual = some ga) (hnp : isThenable (ga d w) = false) :
    testBody t d w = .error (.typeError (notThenableMsg (ga d w))) := by
  cases hv : ga d w with
  | promise b v => rw [hv] at hnp; simp [isThenable] at hnp
  | undef => simp [testBody, hga, hv]
  | nullv => simp [testBody, hga, hv]
  | bool b => simp [testBody, hga, hv]
  | num n => simp [testBody, hga, hv]
  | str s => simp [testBody, hga, hv]
  | obj fs => simp [testBody, hga, hv]

/-- Witness for c10_thenable_required at ntNode, whose getActual returns
the plain number 3. -/
theorem c10_witness :
    JNode.getActual ntNode = some plainActual ∧
    isThenable (plainActual (.num 1) (.num 2)) = false ∧
    testBody ntNode (.num 1) (.num 2)
      = .error (.typeError (notThenableMsg (plainActual (.num 1) (.num 2)))) :=
  ⟨rfl, rfl, c10_thenable_required ntNode (.num 1) (.num 2) plainActual rfl rfl⟩

/-- C2: a leaf node (truthy scenario, falsy feature) whose callable set
returns n scopes makes walkNode register, error-free, exactly n
top-level registrations, all of them groups named `Set index: 0` through
`Set index: n-1` in that order — whatever the node's given predicate is
and however it evaluates. -/
theorem c2_fanout_leaf_groups (t : JNode) (d w i : Value)
    (f : Value → Except JsErr (List Value)) (arr : List Value)
    (hf : truthy t.feature = false) (hs : truthy t.scenario = true)
    (hset : t.set = some f) (harr : f d = .ok arr) :
    (walkNode t d w i).err = none ∧
    (walkNode t d w i).regs.map regName
      = (List.range arr.length).map (fun k => some (setIndexName k)) := by
  cases t with
  | nullNode => simp [JNode.set] at hset
  | mk feature scenario st ta ts bf be gv ia ih gd ga cmp =>
    simp only [JNode.feature] at hf
    simp only [JNode.scenario] at hs
    simp only [JNode.set] at hset
    subst hset
    constructor
    · simp [walkNode, hf, hs, harr]
    · have h0 := fanLeaf_names
        (.mk feature scenario (some f) ta ts bf be gv ia ih gd ga cmp) arr 0 d w i
      simp only [Nat.zero_add] at h0
      simp [walkNode, hf, hs, harr, h0]

/-- Witness for c2_fanout_leaf_groups at flNode (set yields scopes 10
and 11) with index 0, on which the given predicate evaluates false. -/
theorem c2_witness :
    truthy (JNode.feature flNode) = false ∧
    truthy (JNode.scenario flNode) = true ∧
    JNode.set flNode = some pairSet ∧
    pairSet (.num 1) = .ok [.num 10, .num 11] ∧
    ((walkNode flNode (.num 1) (.num 2) (.num 0)).err = none ∧
      (walkNode flNode (.num 1) (.num 2) (.num 0)).regs.map regName
        = (List.range (List.length [Value.num 10, Value.num 11])).map
            (fun k => some (setIndexName k))) :=
  ⟨rfl, rfl, rfl, rfl,
    c2_fanout_leaf_groups flNode (.num 1) (.num 2) (.num 0) pairSet
      [.num 10, .num 11] rfl rfl rfl rfl⟩

/-- C3: inside the k-th nested `Set index` group of a fan-out leaf, when
given is callable the guard is evaluated as given applied to the outer
pre-fan-out scope, the context and the enclosing call's fan-out index —
never the generated scope or the inner index — and the itter
registration on the k-th generated scope happens exactly when that guard
is truthy; when given is absent the itter registration on the generated
scope is unconditional. -/
theorem c3_fanout_guard_outer (t : JNode) (d w i : Value)
    (f : Value → Except JsErr (List Value)) (arr : List Value) (k : Nat) (s : Value)
    (hf : truthy t.feature = false) (hs : truthy t.scenario = true)
    (hset : t.set = some f) (harr : f d = .ok arr) (hk : arr[k]? = some s) :
    (walkNode t d w i).regs[k]?
      = some (Reg.group (setIndexName k)
          (match t.given with
           | some g => if truthy (g d w i) then itter t s w else []
           | none => itter t s w)) := by
  cases t with
  | nullNode => simp [JNode.set] at hset
  | mk feature scenario st ta ts bf be gv ia ih gd ga cmp =>
    simp only [JNode.feature] at hf
    simp only [JNode.scenario] at hs
    simp only [JNode.set] at hset
    subst hset
    have h0 := fanLeaf_get
      (.mk feature scenario (some f) ta ts bf be gv ia ih gd ga cmp) arr 0 d w i k
    simp only [Nat.zero_add] at h0
    simp [walkNode, hf, hs, harr, h0, hk, leafGroupBody, JNode.given]

/-- Witness for c3_fanout_guard_outer at flNode, position 1, with outer
index 5 (truthy, so the guard lets the itter registration through). -/
theorem c3_witness :
    truthy (JNode.feature flNode) = false ∧
    truthy (JNode.scenario flNode) = true ∧
    JNode.set flNode = some pairSet ∧
    pairSet (.num 1) = .ok [.num 10, .num 11] ∧
    [Value.num 10, Value.num 11][1]? = some (.num 11) ∧
    (walkNode flNode (.num 1) (.num 2) (.num 5)).regs[1]?
      = some (Reg.group (setIndexName 1)
          (match JNode.given flNode with
           | some g => if truthy (g (.num 1) (.num 2) (.num 5)) then itter flNode (.num 11) (.num 2) else []
           | none => itter flNode (.num 11) (.num 2))) :=
  ⟨rfl, rfl, rfl, rfl, rfl,
    c3_fanout_guard_outer flNode (.num 1) (.num 2) (.num 5) pairSet
      [.num 10, .num 11] 1 (.num 11) rfl rfl rfl rfl rfl⟩

/-- C6: an inheriting leaf (truthy scenario, falsy feature, no callable
set, array inherit) registers exactly one group named by its scenario
and, inside it, recurses on the inherit list with the resolved scope
(the getDomFragment helper applied to the node and the current scope),
the same context, and an undefined fan-out index in place of the
enclosing call's index. -/
theorem c6_inherit_delegation (t : JNode) (d w i : Value)
    (hf : truthy t.feature = false) (hs : truthy t.scenario = true)
    (hset : t.set = none) (hinh : t.inheritIsArr = true) :
    walkNode t d w i =
      ⟨[Reg.group t.scenario
          (testParser (some t.inherit) (getDomFragment t d) w .undef).regs],
        (testParser (some t.inherit) (getDomFragment t d) w .undef).err⟩ := by
  cases t with
  | nullNode => simp [truthy, JNode.scenario] at hs
  | mk feature scenario st ta ts bf be gv ia ih gd ga cmp =>
    simp only [JNode.feature] at hf
    simp only [JNode.scenario] at hs
    simp only [JNode.set] at hset
    simp only [JNode.inheritIsArr] at hinh
    subst hset
    subst hinh
    simp [walkNode, hf, hs, testParser, JNode.scenario, JNode.inherit]

/-- Witness for c6_inherit_delegation at inhNode (inherit holding one
plain leaf, getDomFragment returning 99). -/
theorem c6_witness :
    truthy (JNode.feature inhNode) = false ∧
    truthy (JNode.scenario inhNode) = true ∧
    JNode.set inhNode = none ∧
    JNode.inheritIsArr inhNode = true ∧
    walkNode inhNode (.num 1) (.num 2) (.num 3) =
      ⟨[Reg.group (JNode.scenario inhNode)
          (testParser (some (JNode.inherit inhNode))
            (getDomFragment inhNode (.num 1)) (.num 2) .undef).regs],
        (testParser (some (JNode.inherit inhNode))
          (getDomFragment inhNode (.num 1)) (.num 2) .undef).err⟩ :=
  ⟨rfl, rfl, rfl, rfl,
    c6_inherit_delegation inhNode (.num 1) (.num 2) (.num 3) rfl rfl rfl rfl⟩

/-- C5: calling the walker with a context-like scope exposing a truthy
document and an undefined context argument produces exactly the same
result as calling it with the inner document as scope and the wrapper
object as context: the unwrap fires once at the root and is skipped
whenever a separate context is supplied. -/
theorem c5_root_unwrap_equiv (tests : Option JNodeList) (D idx : Value)
    (hD : truthy D = true) :
    testParser tests (.obj [("document", D)]) .undef idx
      = testParser tests D (.obj [("document", D)]) idx := by
  cases tests <;> cases D <;>
    simp_all [testParser, parserWith, unwrapRoot, jsGetField, objLookup, truthy]

/-- Witness for c5_root_unwrap_equiv with the one-leaf list and document
scope 5. -/
theorem c5_witness :
    truthy (.num 5) = true ∧
    testParser (some plList) (.obj [("document", .num 5)]) .undef .undef
      = testParser (some plList) (.num 5) (.obj [("document", .num 5)]) .undef :=
  ⟨rfl, c5_root_unwrap_equiv (some plList) (.num 5) .undef rfl⟩

/-- C7 counterexample: with a null scope and a non-array nodes argument
the walker is not a silent no-op — the root unwrap's property read
raises a TypeError before the array guard runs. -/
theorem c7_counterexample :
    (testParser none .nullv .undef .undef).err
        = some (.typeError ("Cannot read properties of null (reading document)")) ∧
    (testParser none .nullv .undef .undef).err ≠ none := by
  refine ⟨rfl, ?_⟩
  intro h
  rw [show (testParser none .nullv .undef .undef).err
      = some (.typeError ("Cannot read properties of null (reading document)")) from rfl] at h
  exact Option.noConfusion h

/-- C7 amended: for a non-array nodes argument and any scope whose
document property read does not throw (any scope other than null and
undefined), the walker returns immediately with no registrations and no
error. -/
theorem c7_nonarray_noop (d w i : Value)
    (hn : d ≠ .nullv) (hu : d ≠ .undef) :
    testParser none d w i = ⟨[], none⟩ := by
  cases d <;> cases w <;>
    simp_all [testParser, parserWith, unwrapRoot, jsGetField, truthy]
  all_goals split_ifs <;> rfl

/-- Witness for c7_nonarray_noop at scope 0 (falsy but not nullish). -/
theorem c7_witness :
    (Value.num 0 ≠ .nullv) ∧ (Value.num 0 ≠ .undef) ∧
    testParser none (.num 0) (.num 2) (.num 3) = ⟨[], none⟩ :=
  ⟨fun h => Value.noConfusion h, fun h => Value.noConfusion h,
    c7_nonarray_noop (.num 0) (.num 2) (.num 3)
      (fun h => Value.noConfusion h) (fun h => Value.noConfusion h)⟩

/-- C8: when a fan-out node's set generator throws, the walker does not
catch it: the node produces no registrations at all (for a feature
group, set runs before the describe registration, so not even the group
appears), no later sibling in the same sequence is processed, and the
error propagates out of the walk over that sequence. -/
theorem c8_set_throw_propagates (t : JNode) (d w i : Value)
    (f : Value → Except JsErr (List Value)) (e : JsErr) (rest : JNodeList)
    (hset : t.set = some f) (herr : f d = .error e)
    (hcls : truthy t.feature = true ∨
      (truthy t.feature = false ∧ truthy t.scenario = true)) :
    walkNode t d w i = ⟨[], some e⟩ ∧
    walkForEach (.cons t rest) d w i = ⟨[], some e⟩ := by
  cases t with
  | nullNode => simp [JNode.set] at hset
  | mk feature scenario st ta ts bf be gv ia ih gd ga cmp =>
    simp only [JNode.feature, JNode.scenario] at hcls
    simp only [JNode.set] at hset
    subst hset
    have hw : walkNode (.mk feature scenario (some f) ta ts bf be gv ia ih gd ga cmp) d w i
        = ⟨[], some e⟩ := by
      rcases hcls with h1 | ⟨h1, h2⟩
      · simp [walkNode, h1, herr]
      · simp [walkNode, h1, h2, herr]
    exact ⟨hw, by simp [walkForEach, hw]⟩

/-- Witness for c8_set_throw_propagates at the throwing fan-out group
bgNode followed by the sibling plNode. -/
theorem c8_witness :
    JNode.set bgNode = some boomSet ∧
    boomSet (.num 1) = .error (.raised (.str ("boom"))) ∧
    (truthy (JNode.feature bgNode) = true ∨
      (truthy (JNode.feature bgNode) = false ∧ truthy (JNode.scenario bgNode) = true)) ∧
    (walkNode bgNode (.num 1) (.num 2) .undef = ⟨[], some (.raised (.str ("boom")))⟩ ∧
      walkForEach (.cons bgNode plList) (.num 1) (.num 2) .undef
        = ⟨[], some (.raised (.str ("boom")))⟩) :=
  ⟨rfl, rfl, Or.inl rfl,
    c8_set_throw_propagates bgNode (.num 1) (.num 2) .undef boomSet
      (.raised (.str ("boom"))) plList rfl rfl (Or.inl rfl)⟩

/-- C9: the walker is not total at its public boundary. A null or
undefined scope makes the root unwrap throw a TypeError even when the
nodes argument is not an array; a null or undefined entry inside a node
array throws when its feature field is read, stopping the walk rather
than being skipped; silent structural skipping applies exactly to
non-null nodes whose feature and scenario are both falsy. -/
theorem c9_partiality (t : JNode) (d w i : Value) (ns : JNodeList)
    (hnn : t.isNull = false)
    (hf : truthy t.feature = false) (hs : truthy t.scenario = false) :
    testParser none .nullv w i
        = ⟨[], some (.typeError ("Cannot read properties of null (reading document)"))⟩ ∧
    testParser none .undef w i
        = ⟨[], some (.typeError ("Cannot read properties of undefined (reading document)"))⟩ ∧
    walkForEach (.cons .nullNode ns) d w i
        = ⟨[], some (.typeError ("Cannot read properties of null (reading feature)"))⟩ ∧
    walkNode t d w i = ⟨[], none⟩ := by
  refine ⟨rfl, rfl, rfl, ?_⟩
  cases t with
  | nullNode => simp [JNode.isNull] at hnn
  | mk feature scenario st ta ts bf be gv ia ih gd ga cmp =>
    simp only [JNode.feature, JNode.scenario] at hf hs
    simp [walkNode, hf, hs]

/-- Witness for c9_partiality at the malformed skipNode. -/
theorem c9_witness :
    JNode.isNull skipNode = false ∧
    truthy (JNode.feature skipNode) = false ∧
    truthy (JNode.scenario skipNode) = false ∧
    (testParser none .nullv (.num 2) (.num 3)
        = ⟨[], some (.typeError ("Cannot read properties of null (reading document)"))⟩ ∧
      testParser none .undef (.num 2) (.num 3)
        = ⟨[], some (.typeError ("Cannot read properties of undefined (reading document)"))⟩ ∧
      walkForEach (.cons .nullNode plList) (.num 1) (.num 2) (.num 3)
        = ⟨[], some (.typeError ("Cannot read properties of null (reading feature)"))⟩ ∧
      walkNode skipNode (.num 1) (.num 2) (.num 3) = ⟨[], none⟩) :=
  ⟨rfl, rfl, rfl,
    c9_partiality skipNode (.num 1) (.num 2) (.num 3) plList rfl rfl rfl⟩

/-- C1 counterexample: frNode is a fan-out leaf carrying a callable
getDomFragment that returns 99 on every input, yet the test registered
inside its `Set index: 0` group receives the raw generated scope 7 —
the resolver is bypassed on the fan-out leaf path, so the scope passed
to getActual does not equal getDomFragment applied to (node, scope). -/
theorem c1_counterexample :
    (walkNode frNode (.num 1) (.num 2) .undef).regs
        = [Reg.group (setIndexName 0)
            [Reg.test (.str ("fr")) (.num 7) (.num 2) (.ok (.ok (.num 7)))]] ∧
    getDomFragment frNode (.num 7) = .num 99 ∧
    getDomFragment frNode (.num 1) = .num 99 ∧
    (Value.num 7 ≠ Value.num 99) := by
  refine ⟨rfl, rfl, rfl, ?_⟩
  intro h
  injection h with h2
  omega

/-- C1 amended: on every non-fan-out leaf path (inheriting leaf,
conditional direct leaf with a truthy given, unconditional direct leaf)
the scope actually passed to getActual or to the recursive walk equals
the resolver getDomFragment applied to the node and the current scope;
a fan-out leaf bypasses the resolver and hands each generated scope
unchanged to the registration in its nested group; and for a node
without a callable getDomFragment the resolver returns the scope
unchanged. -/
theorem c1_fragment_resolution_amended (t : JNode) (d w i : Value)
    (g0 : Value → Value → Value → Value)
    (f0 : Value → Except JsErr (List Value)) (arr : List Value) (k : Nat) (s : Value)
    (hf : truthy t.feature = false) (hs : truthy t.scenario = true) :
    (t.set = none → t.inheritIsArr = true →
      walkNode t d w i =
        ⟨[Reg.group t.scenario
            (testParser (some t.inherit) (getDomFragment t d) w .undef).regs],
          (testParser (some t.inherit) (getDomFragment t d) w .undef).err⟩) ∧
    (t.set = none → t.inheritIsArr = false → t.given = some g0 →
      truthy (g0 d w i) = true →
      walkNode t d w i = ⟨itter t (getDomFragment t d) w, none⟩) ∧
    (t.set = none → t.inheritIsArr = false → t.given = none →
      walkNode t d w i = ⟨itter t (getDomFragment t d) w, none⟩) ∧
    (t.set = some f0 → f0 d = .ok arr → arr[k]? = some s →
      (walkNode t d w i).regs[k]?
        = some (Reg.group (setIndexName k) (leafGroupBody t s d w i))) ∧
    (t.getDomFragment = none → getDomFragment t d = d) := by
  cases t with
  | nullNode => simp [truthy, JNode.scenario] at hs
  | mk feature scenario st ta ts bf be gv ia ih gd ga cmp =>
    simp only [JNode.feature] at hf
    simp only [JNode.scenario] at hs
    refine ⟨?_, ?_, ?_, ?_, ?_⟩
    · intro hset hinh
      simp only [JNode.set] at hset
      simp only [JNode.inheritIsArr] at hinh
      subst hset
      subst hinh
      simp [walkNode, hf, hs, testParser, JNode.scenario, JNode.inherit]
    · intro hset hinh hgv htr
      simp only [JNode.set] at hset
      simp only [JNode.inheritIsArr] at hinh
      simp only [JNode.given] at hgv
      subst hset
      subst hinh
      subst hgv
      simp [walkNode, hf, hs, htr]
    · intro hset hinh hgv
      simp only [JNode.set] at hset
      simp only [JNode.inheritIsArr] at hinh
      simp only [JNode.given] at hgv
      subst hset
      subst hinh
      subst hgv
      simp [walkNode, hf, hs]
    · intro hset harr hk
      simp only [JNode.set] at hset
      subst hset
      have h0 := fanLeaf_get
        (.mk feature scenario (some f0) ta ts bf be gv ia ih gd ga cmp) arr 0 d w i k
      simp only [Nat.zero_add] at h0
      simp [walkNode, hf, hs, harr, h0, hk]
    · intro hgd
      simp only [JNode.getDomFragment] at hgd
      subst hgd
      simp [getDomFragment, JNode.getDomFragment]

/-- Witness for c1_fragment_resolution_amended at dlNode: a conditional
direct leaf with a callable getDomFragment and a truthy given whose
itter registration runs on the resolved scope. -/
theorem c1_witness :
    truthy (JNode.feature dlNode) = false ∧
    truthy (JNode.scenario dlNode) = true ∧
    walkNode dlNode (.num 1) (.num 2) (.num 5)
      = ⟨itter dlNode (getDomFragment dlNode (.num 1)) (.num 2), none⟩ :=
  ⟨rfl, rfl,
    ((c1_fragment_resolution_amended dlNode (.num 1) (.num 2) (.num 5) idxGiven oneSet
        [] 0 .undef rfl rfl).2.1) rfl rfl rfl rfl⟩
